import Mathlib

/-!
A shallow embedding of the C++ class `hl::CircularBuffer<T>` from
`src/CircularBuffer.hpp`.

* `CBState` holds the data members of the class: `packetSize`
  (`_packetSize`, i.e. `sizeof(T)`), `bufferSize` (`_bufferSize`),
  `rawBufferSize` (`_rawBufferSize = _packetSize * _bufferSize`), the
  backing store `buffer` (a byte-indexed sequence of length
  `rawBufferSize`; a `memcpy` of one whole element to byte offset `o`
  is modelled as storing the element value at position `o`, and a
  `memcpy` out of offset `o` as fetching the value at position `o` —
  cursors are always slot-aligned, so one position per slot carries the
  whole element), and the cursors `readPtr` (`_readPtr`) and
  `writePtr` (`_writePtr`).
* The mutex serialises the four public operations; the embedding is
  sequential, so taking the lock is a no-op and every public operation
  is a pure state transformer.
* The unbounded C++ loops of `read` and `write` are run on fuel
  `bufferSize`; the value `none` models a run of a loop that does not
  finish within the fuel (which never happens from a state satisfying
  the structural invariant `WF`).
* Throwing an exception is modelled with `Except.error`.
* `write`'s loop is transcribed exactly as in the source: the local
  `packetIndex` is **not** incremented inside the loop, as in the C++.
-/

namespace CircularBuffer

/-- The exception kinds of the class: `ErrorNothingToRead` is thrown by
`read` on an empty buffer, `ErrorBufferBusy` by `write` on a full one. -/
inductive CBError where
  | NothingToRead
  | BufferBusy
deriving DecidableEq

/-- The data members of `hl::CircularBuffer<T>`. -/
structure CBState (α : Type) where
  packetSize : Nat
  bufferSize : Nat
  rawBufferSize : Nat
  buffer : List α
  readPtr : Nat
  writePtr : Nat
deriving DecidableEq

deriving instance DecidableEq for Except

variable {α : Type}

/-- Source: `nextIndex(index) = (index + _packetSize) % _rawBufferSize`. -/
def nextIndex (cb : CBState α) (index : Nat) : Nat :=
  (index + cb.packetSize) % cb.rawBufferSize

/-- Source: `canReadNotThreadSafe() { return _readPtr != _writePtr; }`. -/
def canReadNotThreadSafe (cb : CBState α) : Bool :=
  cb.readPtr != cb.writePtr

/-- Source: `canWriteNotThreadSafe() { return nextIndex(_writePtr) != _readPtr; }`. -/
def canWriteNotThreadSafe (cb : CBState α) : Bool :=
  nextIndex cb cb.writePtr != cb.readPtr

/-- Source: `canRead` takes the lock (a no-op here) and calls
`canReadNotThreadSafe`. -/
def canRead (cb : CBState α) : Bool :=
  canReadNotThreadSafe cb

/-- Source: `canWrite` takes the lock (a no-op here) and calls
`canWriteNotThreadSafe`. -/
def canWrite (cb : CBState α) : Bool :=
  canWriteNotThreadSafe cb

/-- The loop of `read`:
`for (; _readPtr != _writePtr; _readPtr = nextIndex(_readPtr))`,
copying the element at `_readPtr` into the result vector on each pass. -/
def readLoop [Inhabited α] (fuel : Nat) (cb : CBState α) (values : List α) :
    Option (CBState α × List α) :=
  if cb.readPtr = cb.writePtr then some (cb, values)
  else
    match fuel with
    | 0 => none
    | fuel + 1 =>
        readLoop fuel { cb with readPtr := nextIndex cb cb.readPtr }
          (values ++ [cb.buffer.getD cb.readPtr default])

/-- Source `read()`: throws `ErrorNothingToRead` on an empty buffer,
otherwise drains every queued element, returning them oldest first,
together with the state after the call. -/
def read [Inhabited α] (cb : CBState α) :
    Option (Except CBError (List α) × CBState α) :=
  if canReadNotThreadSafe cb = false then
    some (Except.error CBError.NothingToRead, cb)
  else
    match readLoop cb.bufferSize cb [] with
    | none => none
    | some (cb', values) => some (Except.ok values, cb')

/-- The loop of `write`:
`while (_readPtr != nextIndex(_writePtr) && packetIndex < packets.size())`
copies `packets[packetIndex]` to byte offset `_writePtr` and advances
`_writePtr`; exactly as in the source, `packetIndex` is never
incremented inside the loop. -/
def writeLoop [Inhabited α] (fuel : Nat) (cb : CBState α)
    (packets : List α) (packetIndex : Nat) : Option (CBState α × Nat) :=
  if cb.readPtr ≠ nextIndex cb cb.writePtr ∧ packetIndex < packets.length then
    match fuel with
    | 0 => none
    | fuel + 1 =>
        writeLoop fuel
          { cb with
            buffer := cb.buffer.set cb.writePtr (packets.getD packetIndex default),
            writePtr := nextIndex cb cb.writePtr }
          packets packetIndex
  else some (cb, packetIndex)

/-- Source `write(packets, removeWrittenPackets)`: returns 0 at once on
an empty input, throws `ErrorBufferBusy` on a full buffer, otherwise
runs the loop and, when `removeWrittenPackets` is set, erases the first
`packetIndex` elements from the caller's vector.  The result triple is
the returned count, the state after the call, and the caller's vector
after the call. -/
def write [Inhabited α] (cb : CBState α) (packets : List α)
    (removeWrittenPackets : Bool) :
    Option (Except CBError Nat × CBState α × List α) :=
  if packets.isEmpty then some (Except.ok 0, cb, packets)
  else if canWriteNotThreadSafe cb = false then
    some (Except.error CBError.BufferBusy, cb, packets)
  else
    match writeLoop cb.bufferSize cb packets 0 with
    | none => none
    | some (cb', packetIndex) =>
        some (Except.ok packetIndex, cb',
          if removeWrittenPackets then packets.drop packetIndex else packets)

/-- The constructor: sets `_packetSize = sizeof(T)`,
`_rawBufferSize = _packetSize * _bufferSize`, allocates the backing
store (its indeterminate initial bytes are modelled as `default`), sets
both cursors to 0, and runs `assert(bufferSize > 1)`; an assertion
failure is modelled as `none`. -/
def construct (α : Type) [Inhabited α] (packetSize bufferSize : Nat) :
    Option (CBState α) :=
  if 1 < bufferSize then
    some { packetSize := packetSize, bufferSize := bufferSize,
           rawBufferSize := packetSize * bufferSize,
           buffer := List.replicate (packetSize * bufferSize) default,
           readPtr := 0, writePtr := 0 }
  else none

/-- Structural invariant of a buffer state: positive element size,
capacity at least 2, the raw-size relation, and both cursors aligned to
`packetSize` and inside the backing store. -/
@[reducible] def WF (cb : CBState α) : Prop :=
  0 < cb.packetSize ∧ 1 < cb.bufferSize ∧
  cb.rawBufferSize = cb.packetSize * cb.bufferSize ∧
  cb.readPtr < cb.rawBufferSize ∧ cb.writePtr < cb.rawBufferSize ∧
  cb.readPtr % cb.packetSize = 0 ∧ cb.writePtr % cb.packetSize = 0

/-- Number of elements currently queued, measured in slots. -/
def dataCount (cb : CBState α) : Nat :=
  (cb.writePtr / cb.packetSize + cb.bufferSize - cb.readPtr / cb.packetSize)
    % cb.bufferSize

/-- Number of free slots the write loop may still fill. -/
def freeCount (cb : CBState α) : Nat :=
  (cb.readPtr / cb.packetSize + cb.bufferSize
      - (cb.writePtr / cb.packetSize + 1))
    % cb.bufferSize

/-- A freshly constructed buffer of capacity 5 holding 4-byte elements
(what `construct Nat 4 5` yields). -/
def cbEx : CBState Nat :=
  { packetSize := 4, bufferSize := 5, rawBufferSize := 20,
    buffer := List.replicate 20 0, readPtr := 0, writePtr := 0 }

/-- A freshly constructed buffer of capacity 4 holding 4-byte elements. -/
def cbC2 : CBState Nat :=
  { packetSize := 4, bufferSize := 4, rawBufferSize := 16,
    buffer := List.replicate 16 0, readPtr := 0, writePtr := 0 }

/-- A full buffer of capacity 5: `nextIndex 16 = 0 = readPtr`. -/
def cbFull : CBState Nat :=
  { packetSize := 4, bufferSize := 5, rawBufferSize := 20,
    buffer := List.replicate 20 0, readPtr := 0, writePtr := 16 }

/-- The state of `cbEx` after `write(packets = [1,2,3])`: the defective
loop has filled all four free slots with the first element and left
`writePtr` one slot short of `readPtr`. -/
def cbEx1 : CBState Nat :=
  { packetSize := 4, bufferSize := 5, rawBufferSize := 20,
    buffer := [1, 0, 0, 0, 1, 0, 0, 0, 1, 0, 0, 0, 1, 0, 0, 0, 0, 0, 0, 0],
    readPtr := 0, writePtr := 16 }

/-- The state of `cbEx1` after draining it with `read`. -/
def cbEx2 : CBState Nat :=
  { cbEx1 with readPtr := 16 }

/-- The state of `cbC2` after `write(packets = [1,2,3,4,5,6])`: three
slots, all holding the first element. -/
def cbC2a : CBState Nat :=
  { packetSize := 4, bufferSize := 4, rawBufferSize := 16,
    buffer := [1, 0, 0, 0, 1, 0, 0, 0, 1, 0, 0, 0, 0, 0, 0, 0],
    readPtr := 0, writePtr := 12 }

/-! Arithmetic about slot indices modulo the capacity. -/

lemma mod_two_cases (a N : Nat) (_hN : 0 < N) (ha : a < 2 * N) :
    a % N = if a < N then a else a - N := by
  split_ifs with h
  · exact Nat.mod_eq_of_lt h
  · rw [Nat.mod_eq_sub_mod (Nat.le_of_not_lt h)]
    exact Nat.mod_eq_of_lt (by omega)

lemma count_zero (N i j : Nat) (hN : 0 < N) (hi : i < N) (hj : j < N) :
    (j + N - i) % N = 0 ↔ i = j := by
  rw [mod_two_cases _ _ hN (by omega)]
  split_ifs <;> omega

lemma count_step (N i j d : Nat) (hN : 0 < N) (hi : i < N) (hj : j < N)
    (h : (j + N - i) % N = d + 1) :
    (j + N - (i + 1) % N) % N = d := by
  rw [mod_two_cases _ _ hN (by omega)] at h
  rcases Nat.lt_or_ge (i + 1) N with hc | hc
  · rw [Nat.mod_eq_of_lt hc, mod_two_cases _ _ hN (by omega)]
    split_ifs at h ⊢ <;> omega
  · have hi1 : i + 1 = N := by omega
    rw [hi1, Nat.mod_self, mod_two_cases _ _ hN (by omega)]
    split_ifs at h ⊢ <;> omega

lemma free_zero (N i j : Nat) (hN : 0 < N) (hi : i < N) (hj : j < N) :
    (i + N - (j + 1)) % N = 0 ↔ (j + 1) % N = i := by
  rcases Nat.lt_or_ge (j + 1) N with hc | hc
  · rw [Nat.mod_eq_of_lt hc, mod_two_cases _ _ hN (by omega)]
    split_ifs <;> omega
  · have hj1 : j + 1 = N := by omega
    rw [hj1, Nat.mod_self, mod_two_cases _ _ hN (by omega)]
    split_ifs <;> omega

lemma free_step (N i j f : Nat) (hN : 0 < N) (hi : i < N) (hj : j < N)
    (h : (i + N - (j + 1)) % N = f + 1) :
    (i + N - ((j + 1) % N + 1)) % N = f := by
  rcases Nat.lt_or_ge (j + 1) N with hc | hc
  · rw [Nat.mod_eq_of_lt hc]
    rw [mod_two_cases _ _ hN (by omega)] at h
    rw [mod_two_cases _ _ hN (by omega)]
    split_ifs at h ⊢ <;> omega
  · have hj1 : j + 1 = N := by omega
    rw [hj1, Nat.mod_self]
    rw [hj1] at h
    rw [mod_two_cases _ _ hN (by omega)] at h
    rw [mod_two_cases _ _ hN (by omega)]
    split_ifs at h ⊢ <;> omega

/-! Basic facts about the cursors and `nextIndex`. -/

lemma cursor_slot (p N x : Nat) (hp : 0 < p) (hx : x < p * N) (hm : x % p = 0) :
    p * (x / p) = x ∧ x / p < N := by
  constructor
  · rw [Nat.mul_comm]
    exact Nat.div_mul_cancel (Nat.dvd_of_mod_eq_zero hm)
  · rw [Nat.div_lt_iff_lt_mul hp, Nat.mul_comm]
    exact hx

lemma advance_eq (cb : CBState α)
    (hraw : cb.rawBufferSize = cb.packetSize * cb.bufferSize) (x : Nat) :
    nextIndex cb (cb.packetSize * x)
      = cb.packetSize * ((x + 1) % cb.bufferSize) := by
  unfold nextIndex
  rw [hraw, ← Nat.mul_succ, Nat.mul_mod_mul_left]

lemma nextIndex_lt (cb : CBState α) (x : Nat) (h : 0 < cb.rawBufferSize) :
    nextIndex cb x < cb.rawBufferSize :=
  Nat.mod_lt _ h

lemma nextIndex_aligned (cb : CBState α) (x : Nat) (_hp : 0 < cb.packetSize)
    (hraw : cb.rawBufferSize = cb.packetSize * cb.bufferSize)
    (hm : x % cb.packetSize = 0) :
    nextIndex cb x % cb.packetSize = 0 := by
  unfold nextIndex
  rw [← Nat.dvd_iff_mod_eq_zero] at hm ⊢
  exact (Nat.dvd_mod_iff (hraw ▸ Dvd.intro _ rfl)).mpr
    (Nat.dvd_add hm dvd_rfl)

/-! Unfolding equations for the two transfer loops. -/

lemma readLoop_stop [Inhabited α] (fuel : Nat) (cb : CBState α) (vs : List α)
    (h : cb.readPtr = cb.writePtr) :
    readLoop fuel cb vs = some (cb, vs) := by
  cases fuel <;> simp [readLoop, h]

lemma readLoop_step [Inhabited α] (fuel : Nat) (cb : CBState α) (vs : List α)
    (h : cb.readPtr ≠ cb.writePtr) :
    readLoop (fuel + 1) cb vs
      = readLoop fuel { cb with readPtr := nextIndex cb cb.readPtr }
          (vs ++ [cb.buffer.getD cb.readPtr default]) := by
  rw [readLoop]
  simp [h]

lemma writeLoop_stop [Inhabited α] (fuel : Nat) (cb : CBState α)
    (ps : List α) (k : Nat)
    (h : ¬(cb.readPtr ≠ nextIndex cb cb.writePtr ∧ k < ps.length)) :
    writeLoop fuel cb ps k = some (cb, k) := by
  cases fuel <;> simp only [writeLoop, if_neg h]

lemma writeLoop_step [Inhabited α] (fuel : Nat) (cb : CBState α)
    (ps : List α) (k : Nat)
    (h1 : cb.readPtr ≠ nextIndex cb cb.writePtr) (h2 : k < ps.length) :
    writeLoop (fuel + 1) cb ps k
      = writeLoop fuel
          { cb with
            buffer := cb.buffer.set cb.writePtr (ps.getD k default),
            writePtr := nextIndex cb cb.writePtr } ps k := by
  rw [writeLoop]
  simp [h1, h2]

/-! Soundness of the two loops from any state satisfying `WF`: with
enough fuel the read loop drains the queue and stops with the read
cursor on the write cursor, and the write loop stops with the buffer
full, returning the never-incremented `packetIndex` unchanged. -/

lemma readLoop_sound [Inhabited α] :
    ∀ (d : Nat) (cb : CBState α) (fuel : Nat) (vs : List α),
      WF cb → dataCount cb = d → d ≤ fuel →
      ∃ out, readLoop fuel cb vs
          = some ({ cb with readPtr := cb.writePtr }, vs ++ out) := by
  intro d
  induction d with
  | zero =>
      intro cb fuel vs hwf hd _
      obtain ⟨hp, hN, hraw, hr, hw, hrm, hwm⟩ := hwf
      obtain ⟨hri, hiN⟩ :=
        cursor_slot cb.packetSize cb.bufferSize cb.readPtr hp (hraw ▸ hr) hrm
      obtain ⟨hwi, hjN⟩ :=
        cursor_slot cb.packetSize cb.bufferSize cb.writePtr hp (hraw ▸ hw) hwm
      have hij : cb.readPtr / cb.packetSize = cb.writePtr / cb.packetSize :=
        (count_zero cb.bufferSize _ _ (by omega) hiN hjN).mp hd
      have heq : cb.readPtr = cb.writePtr := by
        rw [← hri, ← hwi, hij]
      have hstate : ({ cb with readPtr := cb.writePtr } : CBState α) = cb := by
        obtain ⟨a, b, c, d0, e, f⟩ := cb
        have heq' : e = f := heq
        subst heq'
        rfl
      refine ⟨[], ?_⟩
      rw [readLoop_stop fuel cb vs heq, List.append_nil, hstate]
  | succ d ih =>
      intro cb fuel vs hwf hd hf
      obtain ⟨hp, hN, hraw, hr, hw, hrm, hwm⟩ := id hwf
      obtain ⟨hri, hiN⟩ :=
        cursor_slot cb.packetSize cb.bufferSize cb.readPtr hp (hraw ▸ hr) hrm
      obtain ⟨hwi, hjN⟩ :=
        cursor_slot cb.packetSize cb.bufferSize cb.writePtr hp (hraw ▸ hw) hwm
      have hne : cb.readPtr ≠ cb.writePtr := by
        intro heq
        have : cb.readPtr / cb.packetSize = cb.writePtr / cb.packetSize := by
          rw [heq]
        have h0 : dataCount cb = 0 := by
          unfold dataCount
          exact (count_zero cb.bufferSize _ _ (by omega) hiN hjN).mpr this
        omega
      cases fuel with
      | zero => omega
      | succ fuel =>
          rw [readLoop_step fuel cb vs hne]
          have hadv : nextIndex cb cb.readPtr
              = cb.packetSize * ((cb.readPtr / cb.packetSize + 1) % cb.bufferSize) := by
            conv_lhs => rw [← hri]
            exact advance_eq cb hraw _
          have hwf1 : WF { cb with readPtr := nextIndex cb cb.readPtr } := by
            refine ⟨hp, hN, hraw, ?_, hw, ?_, hwm⟩
            · exact nextIndex_lt cb cb.readPtr (by omega)
            · exact nextIndex_aligned cb cb.readPtr hp hraw hrm
          have hd1 : dataCount { cb with readPtr := nextIndex cb cb.readPtr } = d := by
            show (cb.writePtr / cb.packetSize + cb.bufferSize
                - nextIndex cb cb.readPtr / cb.packetSize) % cb.bufferSize = d
            rw [hadv, Nat.mul_div_cancel_left _ hp]
            exact count_step cb.bufferSize _ _ d (by omega) hiN hjN hd
          obtain ⟨out, hout⟩ :=
            ih { cb with readPtr := nextIndex cb cb.readPtr } fuel
              (vs ++ [cb.buffer.getD cb.readPtr default]) hwf1 hd1 (by omega)
          refine ⟨cb.buffer.getD cb.readPtr default :: out, ?_⟩
          rw [hout, List.append_assoc]
          rfl

lemma writeLoop_sound [Inhabited α] :
    ∀ (f : Nat) (cb : CBState α) (fuel : Nat) (ps : List α) (k : Nat),
      WF cb → k < ps.length → freeCount cb = f → f ≤ fuel →
      ∃ cb', writeLoop fuel cb ps k = some (cb', k) ∧ WF cb' ∧
        cb'.packetSize = cb.packetSize ∧ cb'.bufferSize = cb.bufferSize ∧
        cb'.rawBufferSize = cb.rawBufferSize ∧ cb'.readPtr = cb.readPtr := by
  intro f
  induction f with
  | zero =>
      intro cb fuel ps k hwf hk hfree _
      obtain ⟨hp, hN, hraw, hr, hw, hrm, hwm⟩ := id hwf
      obtain ⟨hri, hiN⟩ :=
        cursor_slot cb.packetSize cb.bufferSize cb.readPtr hp (hraw ▸ hr) hrm
      obtain ⟨hwi, hjN⟩ :=
        cursor_slot cb.packetSize cb.bufferSize cb.writePtr hp (hraw ▸ hw) hwm
      have hfull : cb.readPtr = nextIndex cb cb.writePtr := by
        have hslot : (cb.writePtr / cb.packetSize + 1) % cb.bufferSize
            = cb.readPtr / cb.packetSize :=
          (free_zero cb.bufferSize _ _ (by omega) hiN hjN).mp hfree
        conv_lhs => rw [← hri]
        conv_rhs => rw [← hwi]
        rw [advance_eq cb hraw, hslot]
      rw [writeLoop_stop fuel cb ps k (by simp [hfull])]
      exact ⟨cb, rfl, hwf, rfl, rfl, rfl, rfl⟩
  | succ f ih =>
      intro cb fuel ps k hwf hk hfree hf
      obtain ⟨hp, hN, hraw, hr, hw, hrm, hwm⟩ := id hwf
      obtain ⟨hri, hiN⟩ :=
        cursor_slot cb.packetSize cb.bufferSize cb.readPtr hp (hraw ▸ hr) hrm
      obtain ⟨hwi, hjN⟩ :=
        cursor_slot cb.packetSize cb.bufferSize cb.writePtr hp (hraw ▸ hw) hwm
      have hadv : nextIndex cb cb.writePtr
          = cb.packetSize * ((cb.writePtr / cb.packetSize + 1) % cb.bufferSize) := by
        conv_lhs => rw [← hwi]
        exact advance_eq cb hraw _
      have hne : cb.readPtr ≠ nextIndex cb cb.writePtr := by
        intro heq
        have hslot : (cb.writePtr / cb.packetSize + 1) % cb.bufferSize
            = cb.readPtr / cb.packetSize := by
          have h2 : cb.packetSize * (cb.readPtr / cb.packetSize)
              = cb.packetSize * ((cb.writePtr / cb.packetSize + 1) % cb.bufferSize) := by
            rw [hri, heq, hadv]
          exact (Nat.eq_of_mul_eq_mul_left hp h2).symm
        have h0 : freeCount cb = 0 := by
          unfold freeCount
          exact (free_zero cb.bufferSize _ _ (by omega) hiN hjN).mpr hslot
        omega
      cases fuel with
      | zero => omega
      | succ fuel =>
          rw [writeLoop_step fuel cb ps k hne hk]
          have hwf1 : WF { cb with
              buffer := cb.buffer.set cb.writePtr (ps.getD k default),
              writePtr := nextIndex cb cb.writePtr } := by
            refine ⟨hp, hN, hraw, hr, ?_, hrm, ?_⟩
            · exact nextIndex_lt cb cb.writePtr (by omega)
            · exact nextIndex_aligned cb cb.writePtr hp hraw hwm
          have hfree1 : freeCount { cb with
              buffer := cb.buffer.set cb.writePtr (ps.getD k default),
              writePtr := nextIndex cb cb.writePtr } = f := by
            show (cb.readPtr / cb.packetSize + cb.bufferSize
                - (nextIndex cb cb.writePtr / cb.packetSize + 1)) % cb.bufferSize = f
            rw [hadv, Nat.mul_div_cancel_left _ hp]
            exact free_step cb.bufferSize _ _ f (by omega) hiN hjN hfree
          obtain ⟨cb', h1, h2, h3, h4, h5, h6⟩ :=
            ih _ fuel ps k hwf1 hk hfree1 (by omega)
          exact ⟨cb', h1, h2, h3, h4, h5, h6⟩

/-! The possible results of one `read` or `write` call from a state
satisfying `WF`. -/

lemma read_result [Inhabited α] (cb : CBState α) (hwf : WF cb) :
    read cb = some (Except.error CBError.NothingToRead, cb) ∨
    ∃ out, read cb = some (Except.ok out, { cb with readPtr := cb.writePtr }) := by
  by_cases h : cb.readPtr = cb.writePtr
  · left
    simp [read, canReadNotThreadSafe, h]
  · right
    have hN : 1 < cb.bufferSize := hwf.2.1
    obtain ⟨out, hout⟩ :=
      readLoop_sound (dataCount cb) cb cb.bufferSize [] hwf rfl
        (Nat.le_of_lt (Nat.mod_lt _ (by omega)))
    have hcan : canReadNotThreadSafe cb = true := by
      simp [canReadNotThreadSafe, h]
    refine ⟨out, ?_⟩
    unfold read
    rw [hcan, if_neg (by simp), hout]
    rfl

lemma write_result [Inhabited α] (cb : CBState α) (hwf : WF cb)
    (ps : List α) (rm : Bool) :
    write cb ps rm = some (Except.error CBError.BufferBusy, cb, ps) ∨
    ∃ cb', write cb ps rm = some (Except.ok 0, cb', ps) ∧ WF cb' ∧
      cb'.packetSize = cb.packetSize ∧ cb'.bufferSize = cb.bufferSize ∧
      cb'.rawBufferSize = cb.rawBufferSize ∧ cb'.readPtr = cb.readPtr := by
  rcases ps with _ | ⟨a, ps0⟩
  · exact Or.inr ⟨cb, rfl, hwf, rfl, rfl, rfl, rfl⟩
  · by_cases hfull : nextIndex cb cb.writePtr = cb.readPtr
    · left
      simp [write, canWriteNotThreadSafe, hfull]
    · right
      have hN : 1 < cb.bufferSize := hwf.2.1
      obtain ⟨cb', h1, h2, h3, h4, h5, h6⟩ :=
        writeLoop_sound (freeCount cb) cb cb.bufferSize (a :: ps0) 0 hwf
          (by simp) rfl (Nat.le_of_lt (Nat.mod_lt _ (by omega)))
      have hcan : canWriteNotThreadSafe cb = true := by
        simp [canWriteNotThreadSafe, hfull]
      refine ⟨cb', ?_, h2, h3, h4, h5, h6⟩
      unfold write
      rw [if_neg (by simp), hcan, if_neg (by simp), h1]
      simp

/-! Settling the claims. -/

/-- Claim C1 (refuting evaluation): a sequence of successful writes
followed by a read does NOT return the concatenation of the written
elements in FIFO order.  Writing `[1,2,3]` into a fresh buffer of
capacity 5 succeeds (returns count 0), yet the subsequent read returns
`[1,1,1,1]` — four copies of the first element — not `[1,2,3]`;
`canRead` is `false` afterwards, as claimed. -/
theorem write_then_read_repeats_first_element :
    write cbEx [1, 2, 3] true = some (Except.ok 0, cbEx1, [1, 2, 3]) ∧
    read cbEx1 = some (Except.ok [1, 1, 1, 1], cbEx2) ∧
    canRead cbEx2 = false ∧
    ([1, 1, 1, 1] : List Nat) ≠ [1, 2, 3] := by decide

/-- Claim C2 (refuting evaluation): writing `[1,2,3,4,5,6]` into a
fresh buffer of capacity 4 with the removal flag set does not write the
three-element prefix, return 3 and leave `[4,5,6]`: the loop never
advances `packetIndex`, so the call stores three copies of the first
element, returns 0, and leaves the caller's sequence untouched. -/
theorem write_returns_zero_and_removes_nothing :
    write cbC2 [1, 2, 3, 4, 5, 6] true
      = some (Except.ok 0, cbC2a, [1, 2, 3, 4, 5, 6]) ∧
    (read cbC2a).map Prod.fst = some (Except.ok [1, 1, 1]) ∧
    (0 : Nat) ≠ 3 := by decide

/-- Claim C3: from any state satisfying the invariant, at most
`bufferSize - 1` elements are resident; `write` preserves the invariant
and the bound; and a `write` that succeeds while asked to store more
elements than there are free slots returns a count strictly below the
requested length. -/
theorem capacity_invariant {α : Type} [Inhabited α] (cb : CBState α)
    (hwf : WF cb) :
    dataCount cb ≤ cb.bufferSize - 1 ∧
    (∀ ps rm res cb' rest, write cb ps rm = some (res, cb', rest) →
        WF cb' ∧ dataCount cb' ≤ cb.bufferSize - 1) ∧
    (∀ ps rm k cb' rest, freeCount cb < ps.length →
        write cb ps rm = some (Except.ok k, cb', rest) → k < ps.length) := by
  have hN : 1 < cb.bufferSize := hwf.2.1
  refine ⟨?_, ?_, ?_⟩
  · have := Nat.mod_lt
      (cb.writePtr / cb.packetSize + cb.bufferSize - cb.readPtr / cb.packetSize)
      (show 0 < cb.bufferSize by omega)
    unfold dataCount
    omega
  · intro ps rm res cb' rest heq
    rcases write_result cb hwf ps rm with h | ⟨cb2, h, hwf2, _, hbs, _, _⟩
    · rw [h] at heq
      simp only [Option.some.injEq, Prod.mk.injEq] at heq
      obtain ⟨_, h2, _⟩ := heq
      subst h2
      have := Nat.mod_lt
        (cb.writePtr / cb.packetSize + cb.bufferSize - cb.readPtr / cb.packetSize)
        (show 0 < cb.bufferSize by omega)
      exact ⟨hwf, by unfold dataCount; omega⟩
    · rw [h] at heq
      simp only [Option.some.injEq, Prod.mk.injEq] at heq
      obtain ⟨_, h2, _⟩ := heq
      subst h2
      have hN2 : 1 < cb2.bufferSize := hwf2.2.1
      have := Nat.mod_lt
        (cb2.writePtr / cb2.packetSize + cb2.bufferSize - cb2.readPtr / cb2.packetSize)
        (show 0 < cb2.bufferSize by omega)
      refine ⟨hwf2, ?_⟩
      unfold dataCount
      omega
  · intro ps rm k cb' rest hlen heq
    rcases write_result cb hwf ps rm with h | ⟨cb2, h, _, _, _, _, _⟩
    · rw [h] at heq
      simp at heq
    · rw [h] at heq
      simp only [Option.some.injEq, Prod.mk.injEq, Except.ok.injEq] at heq
      omega

/-- Witness for C3 at a concrete state. -/
theorem capacity_invariant_witness : dataCount cbEx ≤ cbEx.bufferSize - 1 :=
  (capacity_invariant cbEx (by decide)).1

/-- Claim C4: `read` on an empty buffer (`readPtr = writePtr`) fails
with `NothingToRead` and returns the state completely unchanged —
cursors and stored bytes included. -/
theorem read_empty_no_mutation {α : Type} [Inhabited α] (cb : CBState α)
    (h : cb.readPtr = cb.writePtr) :
    read cb = some (Except.error CBError.NothingToRead, cb) := by
  simp [read, canReadNotThreadSafe, h]

/-- Witness for C4 at a concrete state. -/
theorem read_empty_no_mutation_witness :
    read cbEx = some (Except.error CBError.NothingToRead, cbEx) :=
  read_empty_no_mutation cbEx rfl

/-- Claim C5: `write` on a full buffer (`nextIndex writePtr = readPtr`)
with a non-empty input fails with `BufferBusy` and changes nothing: the
state (cursors and stored bytes) and the caller's sequence are returned
unchanged. -/
theorem write_full_no_mutation {α : Type} [Inhabited α] (cb : CBState α)
    (ps : List α) (rm : Bool) (hne : ps ≠ [])
    (hfull : nextIndex cb cb.writePtr = cb.readPtr) :
    write cb ps rm = some (Except.error CBError.BufferBusy, cb, ps) := by
  rcases ps with _ | ⟨a, ps0⟩
  · exact absurd rfl hne
  · simp [write, canWriteNotThreadSafe, hfull]

/-- Witness for C5 at a concrete full state. -/
theorem write_full_no_mutation_witness :
    write cbFull [7] true
      = some (Except.error CBError.BufferBusy, cbFull, [7]) :=
  write_full_no_mutation cbFull [7] true (by simp) rfl

/-- Claim C6: `canRead` is true exactly when `readPtr ≠ writePtr`, and
`canWrite` exactly when `nextIndex writePtr ≠ readPtr`; both are pure
functions of the state (they are state queries, not transformers, in
this embedding). -/
theorem can_queries_spec {α : Type} (cb : CBState α) :
    (canRead cb = true ↔ cb.readPtr ≠ cb.writePtr) ∧
    (canWrite cb = true ↔ nextIndex cb cb.writePtr ≠ cb.readPtr) := by
  constructor
  · simp [canRead, canReadNotThreadSafe]
  · simp [canWrite, canWriteNotThreadSafe]

/-- Claim C7: both cursors start at 0 at construction and the invariant
"each cursor is a multiple of `packetSize` and lies in
`[0, rawBufferSize)`" (part of `WF`) is preserved by every `read` and
`write` call, all of whose cursor updates go through `nextIndex`. -/
theorem cursor_alignment_invariant {α : Type} [Inhabited α] (cb : CBState α)
    (hwf : WF cb) :
    (∀ p n, 0 < p → 1 < n →
        ∃ cb0, construct α p n = some cb0 ∧ cb0.readPtr = 0 ∧
          cb0.writePtr = 0 ∧ WF cb0) ∧
    (∀ res cb', read cb = some (res, cb') → WF cb') ∧
    (∀ ps rm res cb' rest, write cb ps rm = some (res, cb', rest) → WF cb') := by
  obtain ⟨hp, hN, hraw, hr, hw, hrm, hwm⟩ := id hwf
  refine ⟨?_, ?_, ?_⟩
  · intro p n hp0 hn1
    refine ⟨_, by unfold construct; rw [if_pos hn1], rfl, rfl, ?_⟩
    exact ⟨hp0, hn1, rfl, Nat.mul_pos hp0 (by omega), Nat.mul_pos hp0 (by omega),
      Nat.zero_mod p, Nat.zero_mod p⟩
  · intro res cb' heq
    rcases read_result cb hwf with h | ⟨out, h⟩
    · rw [h] at heq
      simp only [Option.some.injEq, Prod.mk.injEq] at heq
      obtain ⟨_, h2⟩ := heq
      subst h2
      exact hwf
    · rw [h] at heq
      simp only [Option.some.injEq, Prod.mk.injEq] at heq
      obtain ⟨_, h2⟩ := heq
      subst h2
      exact ⟨hp, hN, hraw, hw, hw, hwm, hwm⟩
  · intro ps rm res cb' rest heq
    rcases write_result cb hwf ps rm with h | ⟨cb2, h, hwf2, _, _, _, _⟩
    · rw [h] at heq
      simp only [Option.some.injEq, Prod.mk.injEq] at heq
      obtain ⟨_, h2, _⟩ := heq
      subst h2
      exact hwf
    · rw [h] at heq
      simp only [Option.some.injEq, Prod.mk.injEq] at heq
      obtain ⟨_, h2, _⟩ := heq
      subst h2
      exact hwf2

/-- Witness for C7 at a concrete state. -/
theorem cursor_alignment_invariant_witness : WF cbEx :=
  (cursor_alignment_invariant cbEx (by decide)).2.1
    (Except.error CBError.NothingToRead) cbEx (by decide)

/-- Claim C8: from any state satisfying the invariant, `read` and
`write` terminate (never return the divergence marker `none`), and the
loop work is bounded by what is present at entry: fuel `dataCount`
suffices for the read loop and fuel `freeCount` for the write loop. -/
theorem operations_terminate_bounded {α : Type} [Inhabited α]
    (cb : CBState α) (hwf : WF cb) :
    (∃ r, readLoop (dataCount cb) cb ([] : List α) = some r) ∧
    (read cb).isSome = true ∧
    (∀ ps rm, (write cb ps rm).isSome = true) ∧
    (∀ ps k, k < List.length ps →
        ∃ r, writeLoop (freeCount cb) cb ps k = some r) := by
  refine ⟨?_, ?_, ?_, ?_⟩
  · obtain ⟨out, hout⟩ :=
      readLoop_sound (dataCount cb) cb (dataCount cb) [] hwf rfl (Nat.le_refl _)
    exact ⟨_, hout⟩
  · rcases read_result cb hwf with h | ⟨out, h⟩ <;> simp [h]
  · intro ps rm
    rcases write_result cb hwf ps rm with h | ⟨cb2, h, _⟩ <;> simp [h]
  · intro ps k hk
    obtain ⟨cb', h1, _⟩ :=
      writeLoop_sound (freeCount cb) cb (freeCount cb) ps k hwf hk rfl
        (Nat.le_refl _)
    exact ⟨_, h1⟩

/-- Witness for C8 at a concrete state. -/
theorem operations_terminate_bounded_witness : (read cbEx).isSome = true :=
  (operations_terminate_bounded cbEx (by decide)).2.1

/-- Claim C9: constructing with capacity at most 1 trips the assertion
(modelled as `none`); constructing with capacity above 1 succeeds, with
both cursors 0 and a backing store of `packetSize * bufferSize`
bytes. -/
theorem construct_spec (α : Type) [Inhabited α] (p n : Nat) :
    (n ≤ 1 → construct α p n = none) ∧
    (1 < n → ∃ cb0, construct α p n = some cb0 ∧ cb0.readPtr = 0 ∧
        cb0.writePtr = 0 ∧ cb0.packetSize = p ∧ cb0.bufferSize = n ∧
        cb0.rawBufferSize = p * n ∧ cb0.buffer.length = p * n) := by
  constructor
  · intro h
    unfold construct
    rw [if_neg (by omega)]
  · intro h
    refine ⟨_, by unfold construct; rw [if_pos h], rfl, rfl, rfl, rfl, rfl, ?_⟩
    exact List.length_replicate _ _

/-- Witness for C9 at concrete capacities 1 and 20. -/
theorem construct_spec_witness :
    construct Nat 4 1 = none ∧
    (∃ cb0, construct Nat 4 20 = some cb0 ∧ cb0.readPtr = 0 ∧
        cb0.writePtr = 0 ∧ cb0.packetSize = 4 ∧ cb0.bufferSize = 20 ∧
        cb0.rawBufferSize = 4 * 20 ∧ cb0.buffer.length = 4 * 20) :=
  ⟨(construct_spec Nat 4 1).1 (by omega), (construct_spec Nat 4 20).2 (by omega)⟩

/-- Claim C10: `write` with an empty input returns 0 and leaves
everything unchanged, whatever the buffer state — the empty-input check
comes before the full-buffer check, so even a full buffer raises no
error. -/
theorem write_empty_input {α : Type} [Inhabited α] (cb : CBState α) (rm : Bool) :
    write cb [] rm = some (Except.ok 0, cb, []) := rfl

end CircularBuffer
